import Mathlib

/-!
Verification development for the `disnake.ext.plugins` repository.

Shallow embedding of `src/disnake/ext/plugins/plugin.py` and
`src/disnake/ext/plugins/context.py`. Python dicts are modelled as
insertion-ordered association lists (matching Python dict semantics); abstract
callables and check predicates are identified by natural-number ids, and the
host bot is modelled by the trace of calls the plugin performs on it.
Mutable Python objects that are shared by reference (attribute dicts, extras
dicts, context singletons) live in explicit heaps keyed by allocation ids.
-/

namespace DisnakePlugins

/-! ## Generic association-list dictionaries

Python dicts preserve insertion order: updating an existing key keeps its
position, inserting a new key appends it. -/

/-- Insert into an insertion-ordered dict: replace the value in place when the
key is present, append the pair otherwise (Python `d[k] = v`). -/
def dictInsert (d : List (String × α)) (k : String) (v : α) : List (String × α) :=
  if (d.lookup k).isSome then
    d.map (fun kv => if kv.1 = k then (k, v) else kv)
  else
    d ++ [(k, v)]

/-- Python `d.setdefault(k, v)`: insert only when the key is absent. -/
def setdefault (d : List (String × α)) (k : String) (v : α) : List (String × α) :=
  if (d.lookup k).isSome then d else d ++ [(k, v)]

/-- Python `{**a, **b}`: start from a copy of `a` and insert every item of `b`
in order. -/
def dictMerge (a b : List (String × α)) : List (String × α) :=
  b.foldl (fun d kv => dictInsert d kv.1 kv.2) a

/-- Update the value stored under a numeric heap reference in place. -/
def updateAssoc (l : List (Nat × α)) (k : Nat) (f : α → α) : List (Nat × α) :=
  l.map fun p => if p.1 = k then (p.1, f p.2) else p

/-- Left-biased choice on `Option`, written out so statements stay readable. -/
def orO (x y : Option α) : Option α :=
  match x with
  | some v => some v
  | none => y

/-! ## The lifecycle model: `plugin.py`

Commands, callbacks, checks, hooks and listeners are abstract Python objects;
we track exactly the structure the plugin reads or writes: qualified names,
check lists, and identities. -/

/-- A check predicate, identified by id (`commands.check` callables are abstract
to the plugin; it only stores and concatenates them). -/
abbrev Check := Nat

/-- A Python callable passed to a decorator. `isCoroutine` models
`asyncio.iscoroutinefunction(callback)`; `checks` models the check list the
command constructor picks up from `commands.check`-style decorations already
applied to the callable. -/
structure Callback where
  name : String
  qualname : String
  id : Nat
  isCoroutine : Bool
  checks : List Check
deriving DecidableEq, Repr

/-- A registered command entity (prefix, slash, user or message command): the
fields of the disnake command objects that `plugin.py` touches. -/
structure Cmd where
  qualified_name : String
  callback : Nat
  checks : List Check
deriving DecidableEq, Repr

/-- Construct a command entity from a callback and a resolved name, as
`cls(callback, name=..., **attributes)` does. -/
def mkCommand (cb : Callback) (name : String) : Cmd :=
  { qualified_name := name, callback := cb.id, checks := cb.checks }

/-- A before-start hook on a loop: either the readiness-wait closure
`_before_loop` that `register_loop(wait_until_ready=True)` attaches, or a
user-supplied hook. -/
inductive BeforeHook where
  | wait_until_ready_hook : BeforeHook
  | user : Nat → BeforeHook
deriving DecidableEq, Repr

/-- Observable state of a `tasks.Loop` handle. -/
inductive LoopStatus where
  | idle : LoopStatus
  | started : LoopStatus
  | canceled : LoopStatus
deriving DecidableEq, Repr

/-- A `tasks.Loop` handle: the plugin reads `_before_loop`, calls
`before_loop(...)`, `start()` and `cancel()`. -/
structure Loop where
  id : Nat
  _before_loop : Option BeforeHook
  status : LoopStatus
deriving DecidableEq, Repr

/-- The host bot, abstracted to what `load`/`unload` inspect: its identity and
whether it is a `commands.BotBase` (i.e. supports prefix commands). -/
structure Bot where
  id : Nat
  isBotBase : Bool
deriving DecidableEq, Repr

/-- Errors raised synchronously by the decorator factories.
`invalidCallback` models the `TypeError("<qualname> must be a coroutine
function.")` (the spec calls it `InvalidCallbackError`); `conflictingHook`
models the `TypeError` raised by `register_loop` when the loop already has a
`before_loop` callback (the spec calls it `ConflictingHookError`). -/
inductive Err where
  | invalidCallback : String → Err
  | conflictingHook : Err
deriving DecidableEq, Repr

/-- A call the plugin performs on the host bot (or on a loop handle) during
`load`/`unload`, in execution order. Hook stages appear as single events
because hooks within a stage run concurrently under `asyncio.gather`. -/
inductive HostCall where
  | runHooks : List Nat → HostCall
  | add_command : String → HostCall
  | add_slash_command : String → HostCall
  | add_user_command : String → HostCall
  | add_message_command : String → HostCall
  | add_listener : Nat → String → HostCall
  | loop_start : Nat → HostCall
  | remove_command : String → HostCall
  | remove_slash_command : String → HostCall
  | remove_user_command : String → HostCall
  | remove_message_command : String → HostCall
  | remove_listener : Nat → String → HostCall
  | loop_cancel : Nat → HostCall
  | schedule_delayed_command_sync : HostCall
deriving DecidableEq, Repr

/-- The `Plugin` registry state: the fields of `Plugin.__slots__` that the
claims are about. Dicts are insertion-ordered association lists; hooks,
checks and listener callbacks are identified by id. -/
structure Plugin where
  _commands : List (String × Cmd)
  _slash_commands : List (String × Cmd)
  _user_commands : List (String × Cmd)
  _message_commands : List (String × Cmd)
  _command_checks : List Check
  _slash_command_checks : List Check
  _message_command_checks : List Check
  _user_command_checks : List Check
  _listeners : List (String × List Nat)
  _loops : List Loop
  _pre_load_hooks : List Nat
  _post_load_hooks : List Nat
  _pre_unload_hooks : List Nat
  _post_unload_hooks : List Nat
  _bot : Option Nat
deriving DecidableEq, Repr

/-- A freshly constructed plugin: every registry collection empty, no bot. -/
def Plugin.empty : Plugin where
  _commands := []
  _slash_commands := []
  _user_commands := []
  _message_commands := []
  _command_checks := []
  _slash_command_checks := []
  _message_command_checks := []
  _user_command_checks := []
  _listeners := []
  _loops := []
  _pre_load_hooks := []
  _post_load_hooks := []
  _pre_unload_hooks := []
  _post_unload_hooks := []
  _bot := none

/-! ### Decorator factories

The decorators are modelled as state transformers returning the outcome
together with the plugin state after the call: a raised error leaves the
plugin exactly as it was, because the registry insert is the last statement
of each decorator body. -/

/-- `Plugin.command(name=...)` applied to `callback`: raise unless the
callback is a coroutine function, then construct the command and store it
under its qualified name. -/
def Plugin.command (p : Plugin) (name : Option String) (callback : Callback) :
    Except Err Cmd × Plugin :=
  if callback.isCoroutine then
    let c := mkCommand callback (name.getD callback.name)
    (.ok c, { p with _commands := dictInsert p._commands c.qualified_name c })
  else
    (.error (.invalidCallback callback.qualname), p)

/-- `Plugin.group(name=...)` applied to `callback`: identical body, with the
`commands.Group` class as construction default. -/
def Plugin.group (p : Plugin) (name : Option String) (callback : Callback) :
    Except Err Cmd × Plugin :=
  if callback.isCoroutine then
    let c := mkCommand callback (name.getD callback.name)
    (.ok c, { p with _commands := dictInsert p._commands c.qualified_name c })
  else
    (.error (.invalidCallback callback.qualname), p)

/-- `Plugin.slash_command(...)` applied to `callback`. -/
def Plugin.slash_command (p : Plugin) (name : Option String) (callback : Callback) :
    Except Err Cmd × Plugin :=
  if callback.isCoroutine then
    let c := mkCommand callback (name.getD callback.name)
    (.ok c, { p with _slash_commands := dictInsert p._slash_commands c.qualified_name c })
  else
    (.error (.invalidCallback callback.qualname), p)

/-- `Plugin.user_command(...)` applied to `callback`. -/
def Plugin.user_command (p : Plugin) (name : Option String) (callback : Callback) :
    Except Err Cmd × Plugin :=
  if callback.isCoroutine then
    let c := mkCommand callback (name.getD callback.name)
    (.ok c, { p with _user_commands := dictInsert p._user_commands c.qualified_name c })
  else
    (.error (.invalidCallback callback.qualname), p)

/-- `Plugin.message_command(...)` applied to `callback`. -/
def Plugin.message_command (p : Plugin) (name : Option String) (callback : Callback) :
    Except Err Cmd × Plugin :=
  if callback.isCoroutine then
    let c := mkCommand callback (name.getD callback.name)
    (.ok c, { p with _message_commands := dictInsert p._message_commands c.qualified_name c })
  else
    (.error (.invalidCallback callback.qualname), p)

/-- `Plugin.register_loop(wait_until_ready=...)` applied to `loop`. Returns
the outcome, the plugin state after the call, and the loop object after the
call (the loop is mutated in place by `loop.before_loop(_before_loop)`). -/
def Plugin.register_loop (p : Plugin) (wait_until_ready : Bool) (loop : Loop) :
    Except Err Unit × Plugin × Loop :=
  if wait_until_ready then
    match loop._before_loop with
    | some _ => (.error .conflictingHook, p, loop)
    | none =>
      let loop := { loop with _before_loop := some .wait_until_ready_hook }
      (.ok (), { p with _loops := p._loops ++ [loop] }, loop)
  else
    (.ok (), { p with _loops := p._loops ++ [loop] }, loop)

/-! ### Lifecycle: `load` and `unload`

Each stage threads the call trace accumulator exactly as the Python
statements append host calls during execution. -/

/-- `Plugin._prepend_plugin_checks`: when the plugin-wide check list is
nonempty, set `command.checks = [*checks, *command.checks]`. -/
def Plugin._prepend_plugin_checks (checks : List Check) (c : Cmd) : Cmd :=
  if checks ≠ [] then { c with checks := checks ++ c.checks } else c

/-- One `for command in <dict>.values()` loop of `load`: call the add method
on the host, then prepend the plugin-wide checks to the command in place. -/
def pushCmdStage (mk : String → HostCall) (checks : List Check) :
    List (String × Cmd) → List HostCall → List (String × Cmd) × List HostCall
  | [], tr => ([], tr)
  | (n, c) :: rest, tr =>
    let tr := tr ++ [mk n]
    let c := Plugin._prepend_plugin_checks checks c
    let (rest', tr') := pushCmdStage mk checks rest tr
    ((n, c) :: rest', tr')

/-- The listener loop of `load`: for each event key, add each callback in
registration order. -/
def pushListenerStage : List (String × List Nat) → List HostCall → List HostCall
  | [], tr => tr
  | (ev, cbs) :: rest, tr =>
    pushListenerStage rest (tr ++ cbs.map (fun cb => .add_listener cb ev))

/-- The loop-starting stage of `load`. -/
def startLoopStage : List Loop → List HostCall → List Loop × List HostCall
  | [], tr => ([], tr)
  | l :: rest, tr =>
    let (rest', tr') := startLoopStage rest (tr ++ [.loop_start l.id])
    ({ l with status := .started } :: rest', tr')

/-- `Plugin.load(bot)`: store the bot handle, gather the pre-load hooks, push
prefix commands (only for a `BotBase` host) then slash, user and message
commands — prepending the respective plugin-wide checks to each — then
listeners, then start loops, gather the post-load hooks, and trigger the
delayed command sync. Returns the plugin state and the host-call trace. -/
def Plugin.load (p : Plugin) (bot : Bot) : Plugin × List HostCall :=
  let p := { p with _bot := some bot.id }
  let tr : List HostCall := [.runHooks p._pre_load_hooks]
  let (cmds, tr) :=
    if bot.isBotBase then
      pushCmdStage .add_command p._command_checks p._commands tr
    else
      (p._commands, tr)
  let (slash, tr) := pushCmdStage .add_slash_command p._slash_command_checks p._slash_commands tr
  let (users, tr) := pushCmdStage .add_user_command p._user_command_checks p._user_commands tr
  let (msgs, tr) := pushCmdStage .add_message_command p._message_command_checks p._message_commands tr
  let tr := pushListenerStage p._listeners tr
  let (loops, tr) := startLoopStage p._loops tr
  let tr := tr ++ [.runHooks p._post_load_hooks, .schedule_delayed_command_sync]
  ({ p with
      _commands := cmds
      _slash_commands := slash
      _user_commands := users
      _message_commands := msgs
      _loops := loops },
   tr)

/-- One `for command in <dict>:` loop of `unload`: iterating a Python dict
yields its keys, so the remove methods receive the qualified names. -/
def removeCmdStage (mk : String → HostCall) :
    List (String × Cmd) → List HostCall → List HostCall
  | [], tr => tr
  | (n, _) :: rest, tr => removeCmdStage mk rest (tr ++ [mk n])

/-- The listener loop of `unload`: same event/callback pairing as `load`. -/
def removeListenerStage : List (String × List Nat) → List HostCall → List HostCall
  | [], tr => tr
  | (ev, cbs) :: rest, tr =>
    removeListenerStage rest (tr ++ cbs.map (fun cb => .remove_listener cb ev))

/-- The loop-cancelling stage of `unload`. -/
def cancelLoopStage : List Loop → List HostCall → List Loop × List HostCall
  | [], tr => ([], tr)
  | l :: rest, tr =>
    let (rest', tr') := cancelLoopStage rest (tr ++ [.loop_cancel l.id])
    ({ l with status := .canceled } :: rest', tr')

/-- `Plugin.unload(bot)`: gather the pre-unload hooks, remove each command by
name (prefix only for a `BotBase` host, then slash, user, message), remove
each listener, cancel each loop, gather the post-unload hooks, and trigger
the delayed command sync. The bot handle is not cleared and the registry
dicts (including the mutated check lists) are untouched. -/
def Plugin.unload (p : Plugin) (bot : Bot) : Plugin × List HostCall :=
  let tr : List HostCall := [.runHooks p._pre_unload_hooks]
  let tr := if bot.isBotBase then removeCmdStage .remove_command p._commands tr else tr
  let tr := removeCmdStage .remove_slash_command p._slash_commands tr
  let tr := removeCmdStage .remove_user_command p._user_commands tr
  let tr := removeCmdStage .remove_message_command p._message_commands tr
  let tr := removeListenerStage p._listeners tr
  let (loops, tr) := cancelLoopStage p._loops tr
  let tr := tr ++ [.runHooks p._post_unload_hooks, .schedule_delayed_command_sync]
  ({ p with _loops := loops }, tr)

/-! ### Stage-trace and trace-extraction functions used by the statements -/

/-- The add calls the prefix-command stage of `load` issues. -/
def prefixAddCalls (p : Plugin) (bot : Bot) : List HostCall :=
  if bot.isBotBase then p._commands.map (fun nc => .add_command nc.1) else []

/-- The add calls the slash-command stage of `load` issues. -/
def slashAddCalls (p : Plugin) : List HostCall :=
  p._slash_commands.map (fun nc => .add_slash_command nc.1)

/-- The add calls the user-command stage of `load` issues. -/
def userAddCalls (p : Plugin) : List HostCall :=
  p._user_commands.map (fun nc => .add_user_command nc.1)

/-- The add calls the message-command stage of `load` issues. -/
def messageAddCalls (p : Plugin) : List HostCall :=
  p._message_commands.map (fun nc => .add_message_command nc.1)

/-- The add calls the listener stage of `load` issues: per event key, each
callback in registration order. -/
def listenerAddCalls (p : Plugin) : List HostCall :=
  p._listeners.flatMap (fun q => q.2.map (fun cb => .add_listener cb q.1))

/-- The start calls the loop stage of `load` issues. -/
def loopStartCalls (p : Plugin) : List HostCall :=
  p._loops.map (fun l => .loop_start l.id)

/-- Names of prefix commands added to the host in a trace. -/
def addedPrefixNames (tr : List HostCall) : List String :=
  tr.filterMap fun c => match c with | .add_command n => some n | _ => none

/-- Names of prefix commands removed from the host in a trace. -/
def removedPrefixNames (tr : List HostCall) : List String :=
  tr.filterMap fun c => match c with | .remove_command n => some n | _ => none

/-- Names of slash commands added to the host in a trace. -/
def addedSlashNames (tr : List HostCall) : List String :=
  tr.filterMap fun c => match c with | .add_slash_command n => some n | _ => none

/-- Names of slash commands removed from the host in a trace. -/
def removedSlashNames (tr : List HostCall) : List String :=
  tr.filterMap fun c => match c with | .remove_slash_command n => some n | _ => none

/-- Names of user commands added to the host in a trace. -/
def addedUserNames (tr : List HostCall) : List String :=
  tr.filterMap fun c => match c with | .add_user_command n => some n | _ => none

/-- Names of user commands removed from the host in a trace. -/
def removedUserNames (tr : List HostCall) : List String :=
  tr.filterMap fun c => match c with | .remove_user_command n => some n | _ => none

/-- Names of message commands added to the host in a trace. -/
def addedMessageNames (tr : List HostCall) : List String :=
  tr.filterMap fun c => match c with | .add_message_command n => some n | _ => none

/-- Names of message commands removed from the host in a trace. -/
def removedMessageNames (tr : List HostCall) : List String :=
  tr.filterMap fun c => match c with | .remove_message_command n => some n | _ => none

/-- (callback, event) pairs added as listeners in a trace. -/
def addedListenerPairs (tr : List HostCall) : List (Nat × String) :=
  tr.filterMap fun c => match c with | .add_listener cb ev => some (cb, ev) | _ => none

/-- (callback, event) pairs removed as listeners in a trace. -/
def removedListenerPairs (tr : List HostCall) : List (Nat × String) :=
  tr.filterMap fun c => match c with | .remove_listener cb ev => some (cb, ev) | _ => none

/-- Ids of loops started in a trace. -/
def startedLoopIds (tr : List HostCall) : List Nat :=
  tr.filterMap fun c => match c with | .loop_start i => some i | _ => none

/-- Ids of loops canceled in a trace. -/
def canceledLoopIds (tr : List HostCall) : List Nat :=
  tr.filterMap fun c => match c with | .loop_cancel i => some i | _ => none

/-! ## The attribute merge: `Plugin._apply_attrs`

Python dicts are shared by reference, so the attribute dicts and the nested
extras dicts live in an explicit heap; `_apply_attrs` is a heap transformer.
The result `None` models a `TypeError`/`AttributeError` crash on an ill-typed
input (calling `setdefault` on a non-dict `extras` value) or a dangling
reference, neither of which arises for the states `plugin.py` builds. -/

/-- A value stored in an attribute dict: an abstract non-dict Python value, or
a reference to an extras dict in the heap. -/
inductive AttrVal where
  | prim : Nat → AttrVal
  | eref : Nat → AttrVal
deriving DecidableEq, Repr

/-- A value stored in an extras dict: the owning plugin back-reference, the
owning plugin metadata back-reference, or an abstract user value. -/
inductive ExtraVal where
  | pluginRef : ExtraVal
  | metadataRef : ExtraVal
  | user : Nat → ExtraVal
deriving DecidableEq, Repr

/-- An attribute dict (e.g. `metadata.command_attrs`, or the merged result). -/
abbrev AttrDict := List (String × AttrVal)

/-- An extras dict. -/
abbrev ExtrasDict := List (String × ExtraVal)

/-- The heap of attribute dicts and extras dicts, keyed by allocation ids. -/
structure AttrHeap where
  attrDicts : List (Nat × AttrDict)
  extrasDicts : List (Nat × ExtrasDict)
  nextAttrRef : Nat
  nextExtrasRef : Nat
deriving DecidableEq, Repr

/-- Well-formedness of the heap: every allocated id is below the allocation
counter, so fresh allocations never collide. -/
def AttrHeap.WF (h : AttrHeap) : Prop :=
  (∀ q ∈ h.attrDicts, q.1 < h.nextAttrRef) ∧ (∀ q ∈ h.extrasDicts, q.1 < h.nextExtrasRef)

instance (h : AttrHeap) : Decidable h.WF := by
  unfold AttrHeap.WF
  infer_instance

/-- The keyword arguments of one decorator-factory call: `none` is the unset
sentinel `None`; Python keyword arguments have pairwise distinct keys. -/
abbrev Kwargs := List (String × Option AttrVal)

/-- The `{k: v for k, v in kwargs.items() if v is not None}` comprehension. -/
def filteredKwargs (kwargs : Kwargs) : AttrDict :=
  kwargs.filterMap fun kv => kv.2.map (fun v => (kv.1, v))

/-- `Plugin._apply_attrs(attrs, **kwargs)` as a heap transformer:
build `new_attrs = {**attrs, **filtered}` as a fresh dict, run
`extras = new_attrs.setdefault("extras", {})` — which reuses a supplied
extras dict by reference, or allocates an empty one — then
`extras.setdefault("plugin", ...)` and `extras.setdefault("metadata", ...)`
mutate that extras dict in place. Returns the heap after the call and the
reference of the freshly allocated result dict. -/
def Plugin._apply_attrs (h : AttrHeap) (attrsRef : Nat) (kwargs : Kwargs) :
    Option (AttrHeap × Nat) :=
  match h.attrDicts.lookup attrsRef with
  | none => none
  | some attrs =>
    let new_attrs := dictMerge attrs (filteredKwargs kwargs)
    match new_attrs.lookup "extras" with
    | some (.prim _) => none
    | some (.eref r) =>
      match h.extrasDicts.lookup r with
      | none => none
      | some ed =>
        let ed := setdefault ed "plugin" .pluginRef
        let ed := setdefault ed "metadata" .metadataRef
        let newRef := h.nextAttrRef
        some ({ h with
                extrasDicts := updateAssoc h.extrasDicts r (fun _ => ed)
                attrDicts := h.attrDicts ++ [(newRef, new_attrs)]
                nextAttrRef := newRef + 1 },
              newRef)
    | none =>
      let r := h.nextExtrasRef
      let ed := setdefault (setdefault ([] : ExtrasDict) "plugin" .pluginRef) "metadata" .metadataRef
      let new_attrs := new_attrs ++ [("extras", AttrVal.eref r)]
      let newRef := h.nextAttrRef
      some ({ h with
              extrasDicts := h.extrasDicts ++ [(r, ed)]
              nextExtrasRef := r + 1
              attrDicts := h.attrDicts ++ [(newRef, new_attrs)]
              nextAttrRef := newRef + 1 },
            newRef)

/-- The extras dict designated by the merged attributes before the call: the
dict stored under the supplied reference, or the empty dict about to be
created. Used only in specification statements. -/
def extrasBefore (h : AttrHeap) (attrsRef : Nat) (kwargs : Kwargs) : ExtrasDict :=
  match h.attrDicts.lookup attrsRef with
  | none => []
  | some attrs =>
    match (dictMerge attrs (filteredKwargs kwargs)).lookup "extras" with
    | some (.eref r) => (h.extrasDicts.lookup r).getD []
    | _ => []

/-- The heap after a successful `_apply_attrs` call (the input heap when the
call fails). Used only in specification statements. -/
def applyAttrsHeap (h : AttrHeap) (attrsRef : Nat) (kwargs : Kwargs) : AttrHeap :=
  match Plugin._apply_attrs h attrsRef kwargs with
  | some (h', _) => h'
  | none => h

/-- The result mapping of a successful `_apply_attrs` call. Used only in
specification statements. -/
def applyAttrsResult (h : AttrHeap) (attrsRef : Nat) (kwargs : Kwargs) : AttrDict :=
  match Plugin._apply_attrs h attrsRef kwargs with
  | some (h', resRef) => (h'.attrDicts.lookup resRef).getD []
  | none => []

/-- The reference held by an `"extras"` entry, when it is one. -/
def erefOf : Option AttrVal → Nat
  | some (.eref r) => r
  | _ => 0

/-- The reference of the extras dict that a successful `_apply_attrs` call
places in (and mutates through) its result mapping. Used only in
specification statements. -/
def applyAttrsExtrasRef (h : AttrHeap) (attrsRef : Nat) (kwargs : Kwargs) : Nat :=
  erefOf ((applyAttrsResult h attrsRef kwargs).lookup "extras")

/-- The extras dict reachable from the result mapping after a successful
`_apply_attrs` call. Used only in specification statements. -/
def applyAttrsExtras (h : AttrHeap) (attrsRef : Nat) (kwargs : Kwargs) : ExtrasDict :=
  ((applyAttrsHeap h attrsRef kwargs).extrasDicts.lookup
    (applyAttrsExtrasRef h attrsRef kwargs)).getD []

/-! ## The keyed singleton registry: `context.py` -/

/-- A concrete Python-like value with its truthiness, enough to express the
`default or self.default` behaviour of `GlobalContext.get`. -/
inductive PyVal where
  | int : Int → PyVal
  | bool : Bool → PyVal
  | str : String → PyVal
deriving DecidableEq, Repr

/-- Python truthiness on the modelled values: `0`, `False` and the empty
string are falsy, everything else is truthy. -/
def PyVal.truthy : PyVal → Bool
  | .int n => decide (n ≠ 0)
  | .bool b => b
  | .str s => decide (s ≠ "")

/-- Python `a or b` on optional values, where `none` is the falsy `Undefined`
sentinel: returns `a` when `a` is a truthy value, `b` otherwise. -/
def pyOr (a b : Option PyVal) : Option PyVal :=
  match a with
  | some v => if v.truthy then some v else b
  | none => b

/-- One `GlobalContext` instance: `value = none` models the `Undefined`
sentinel assigned in `__new__`; `default` is the construction-time default. -/
structure GlobalContext where
  key : String
  value : Option PyVal
  default : Option PyVal
deriving DecidableEq, Repr

/-- The process-wide class state: the `__instances__` dict mapping keys to
instances, with instance identity made explicit through a heap of ids. -/
structure CtxStore where
  instancesByKey : List (String × Nat)
  heap : List (Nat × GlobalContext)
  next : Nat
deriving DecidableEq, Repr

/-- The class state at process start: no instances. -/
def CtxStore.empty : CtxStore := { instancesByKey := [], heap := [], next := 0 }

/-- Well-formedness: every allocated instance id is below the counter. -/
def CtxStore.WF (st : CtxStore) : Prop :=
  ∀ q ∈ st.heap, q.1 < st.next

instance (st : CtxStore) : Decidable st.WF := by
  unfold CtxStore.WF
  infer_instance

/-- `GlobalContext.__new__(cls, key, default)`: return the existing singleton
for the key when there is one (the new `default` argument is then ignored),
otherwise allocate an instance with `value = Undefined` and register it. -/
def GlobalContext.new (st : CtxStore) (key : String) (default : Option PyVal) :
    CtxStore × Nat :=
  match st.instancesByKey.lookup key with
  | some id => (st, id)
  | none =>
    let id := st.next
    ({ instancesByKey := st.instancesByKey ++ [(key, id)]
       heap := st.heap ++ [(id, { key := key, value := none, default := default })]
       next := id + 1 },
     id)

/-- `GlobalContext.set(obj)` on the instance with the given id. -/
def GlobalContext.set (st : CtxStore) (id : Nat) (obj : PyVal) : CtxStore :=
  { st with heap := updateAssoc st.heap id (fun inst => { inst with value := some obj }) }

/-- `GlobalContext.get(default)` on one instance: return the value when it
has been set; otherwise resolve `default or self.default` by truthiness and
raise `ValueError` when that resolves to `Undefined`. -/
def GlobalContext.get (inst : GlobalContext) (default : Option PyVal) :
    Except Unit PyVal :=
  match inst.value with
  | some v => .ok v
  | none =>
    match pyOr default inst.default with
    | none => .error ()
    | some d => .ok d

/-- Heap-level `get`: look the instance up by id and call `get` on it.
`none` means a dangling id, which cannot arise from `GlobalContext.new`. -/
def CtxStore.getValue (st : CtxStore) (id : Nat) (default : Option PyVal) :
    Option (Except Unit PyVal) :=
  (st.heap.lookup id).map (fun inst => inst.get default)

/-- The store and instance id after the first construction
`GlobalContext(k, default=d)`. Used only in specification statements. -/
def ctxAfterFirst (st : CtxStore) (k : String) (d : PyVal) : CtxStore × Nat :=
  GlobalContext.new st k (some d)

/-- The store after `GlobalContext(k, default=d)` followed by
`GlobalContext(k).set(v)` (the second construction resolves to the same
singleton, so `set` acts on the first instance). Used only in specification
statements. -/
def ctxAfterSet (st : CtxStore) (k : String) (d v : PyVal) : CtxStore :=
  GlobalContext.set (ctxAfterFirst st k d).1 (ctxAfterFirst st k d).2 v

/-! ## Concrete inputs used by witnesses and counterexamples -/

/-- A plugin with plugin-wide prefix checks `[0, 1]` (the checks `A`, `B` of
the claim) and one prefix command `"c"` with its own check list `[2]` (the
check `C`). -/
def pluginAB : Plugin :=
  { Plugin.empty with
      _commands := [("c", { qualified_name := "c", callback := 0, checks := [2] })]
      _command_checks := [0, 1] }

/-- A `commands.Bot`-like host (supports prefix commands). -/
def botHost : Bot := { id := 0, isBotBase := true }

/-- A plugin with one plugin-wide prefix check `[0]` and one prefix command
`"c"` with local checks `[2]`, for the reload counterexample. -/
def pluginReload : Plugin :=
  { Plugin.empty with
      _commands := [("c", { qualified_name := "c", callback := 0, checks := [2] })]
      _command_checks := [0] }

/-- The plugin state after the call sequence `load(bot)`, `unload(bot)`,
`load(bot)` — one full reload cycle on the same Plugin object. -/
def reloadOnce (p : Plugin) (bot : Bot) : Plugin :=
  (Plugin.load (Plugin.unload (Plugin.load p bot).1 bot).1 bot).1

/-- The plugin state after `load(bot)`, `unload(bot)`, `load(bot)` on
`pluginReload`. -/
def pluginReloaded : Plugin := reloadOnce pluginReload botHost

/-- A plugin exercising every registry collection: two prefix commands, one
slash, one user, one message command, two listeners on one event plus one on
another, two loops, and hooks in every stage. -/
def pluginFull : Plugin :=
  { _commands := [("a", { qualified_name := "a", callback := 10, checks := [] }),
                  ("b", { qualified_name := "b", callback := 11, checks := [5] })]
    _slash_commands := [("s", { qualified_name := "s", callback := 12, checks := [] })]
    _user_commands := [("u", { qualified_name := "u", callback := 13, checks := [] })]
    _message_commands := [("m", { qualified_name := "m", callback := 14, checks := [] })]
    _command_checks := [0, 1]
    _slash_command_checks := [2]
    _message_command_checks := [3]
    _user_command_checks := []
    _listeners := [("on_message", [20, 21]), ("on_ready", [22])]
    _loops := [{ id := 30, _before_loop := none, status := .idle },
               { id := 31, _before_loop := some (.user 7), status := .idle }]
    _pre_load_hooks := [40]
    _post_load_hooks := [41]
    _pre_unload_hooks := [42]
    _post_unload_hooks := [43]
    _bot := none }

/-- A non-coroutine callable (e.g. a plain `def`). -/
def plainCallable : Callback :=
  { name := "f", qualname := "mod.f", id := 50, isCoroutine := false, checks := [] }

/-- A loop with no before-start callback. -/
def freshLoop : Loop := { id := 60, _before_loop := none, status := .idle }

/-- A loop that already has a user-supplied before-start callback. -/
def hookedLoop : Loop := { id := 61, _before_loop := some (.user 8), status := .idle }

/-- A heap whose attribute dict `0` (a default bundle such as
`metadata.command_attrs`) holds a key `"help"` and supplies the extras dict
`0`, which is empty; extras dict `1` belongs to an unrelated entity. -/
def attrHeapEx : AttrHeap :=
  { attrDicts := [(0, [("help", .prim 9), ("extras", .eref 0)])]
    extrasDicts := [(0, []), (1, [("k", .user 3)])]
    nextAttrRef := 1
    nextExtrasRef := 2 }

/-- Override kwargs for the witness: `enabled=False`-style falsy override for
`"help"`, an unset (`None`) value for `"usage"`, and a new key `"brief"`. -/
def kwargsEx : Kwargs :=
  [("help", some (.prim 0)), ("usage", none), ("brief", some (.prim 4))]

/-- A never-set context instance with construction-time default `5`. -/
def ctxInstFive : GlobalContext :=
  { key := "k", value := none, default := some (.int 5) }

/-! ## Helper lemmas about the lifecycle stages -/

theorem prepend_checks_eq (checks : List Check) (c : Cmd) :
    Plugin._prepend_plugin_checks checks c = { c with checks := checks ++ c.checks } := by
  cases c
  unfold Plugin._prepend_plugin_checks
  split <;> simp_all

theorem pushCmdStage_eq (mk : String → HostCall) (checks : List Check) :
    ∀ (l : List (String × Cmd)) (tr : List HostCall),
      pushCmdStage mk checks l tr =
        (l.map (fun nc => (nc.1, Plugin._prepend_plugin_checks checks nc.2)),
         tr ++ l.map (fun nc => mk nc.1))
  | [], tr => by simp [pushCmdStage]
  | (n, c) :: rest, tr => by
    simp [pushCmdStage, pushCmdStage_eq mk checks rest (tr ++ [mk n])]

theorem pushListenerStage_eq :
    ∀ (l : List (String × List Nat)) (tr : List HostCall),
      pushListenerStage l tr =
        tr ++ l.flatMap (fun q => q.2.map (fun cb => HostCall.add_listener cb q.1))
  | [], tr => by simp [pushListenerStage]
  | (ev, cbs) :: rest, tr => by
    simp [pushListenerStage, pushListenerStage_eq rest]

theorem startLoopStage_eq :
    ∀ (l : List Loop) (tr : List HostCall),
      startLoopStage l tr =
        (l.map (fun lp => { lp with status := .started }),
         tr ++ l.map (fun lp => HostCall.loop_start lp.id))
  | [], tr => by simp [startLoopStage]
  | lp :: rest, tr => by
    simp [startLoopStage, startLoopStage_eq rest (tr ++ [HostCall.loop_start lp.id])]

theorem removeCmdStage_eq (mk : String → HostCall) :
    ∀ (l : List (String × Cmd)) (tr : List HostCall),
      removeCmdStage mk l tr = tr ++ l.map (fun nc => mk nc.1)
  | [], tr => by simp [removeCmdStage]
  | (n, c) :: rest, tr => by
    simp [removeCmdStage, removeCmdStage_eq mk rest (tr ++ [mk n])]

theorem removeListenerStage_eq :
    ∀ (l : List (String × List Nat)) (tr : List HostCall),
      removeListenerStage l tr =
        tr ++ l.flatMap (fun q => q.2.map (fun cb => HostCall.remove_listener cb q.1))
  | [], tr => by simp [removeListenerStage]
  | (ev, cbs) :: rest, tr => by
    simp [removeListenerStage, removeListenerStage_eq rest]

theorem cancelLoopStage_eq :
    ∀ (l : List Loop) (tr : List HostCall),
      cancelLoopStage l tr =
        (l.map (fun lp => { lp with status := .canceled }),
         tr ++ l.map (fun lp => HostCall.loop_cancel lp.id))
  | [], tr => by simp [cancelLoopStage]
  | lp :: rest, tr => by
    simp [cancelLoopStage, cancelLoopStage_eq rest (tr ++ [HostCall.loop_cancel lp.id])]

/-- The plugin state after `load`: bot handle stored, plugin-wide checks
prepended to every command of each kind (prefix only on a `BotBase` host),
loops started, everything else untouched. -/
theorem load_fst (p : Plugin) (bot : Bot) :
    (p.load bot).1 =
      { p with
          _bot := some bot.id
          _commands :=
            if bot.isBotBase then
              p._commands.map
                (fun nc => (nc.1, Plugin._prepend_plugin_checks p._command_checks nc.2))
            else p._commands
          _slash_commands :=
            p._slash_commands.map
              (fun nc => (nc.1, Plugin._prepend_plugin_checks p._slash_command_checks nc.2))
          _user_commands :=
            p._user_commands.map
              (fun nc => (nc.1, Plugin._prepend_plugin_checks p._user_command_checks nc.2))
          _message_commands :=
            p._message_commands.map
              (fun nc => (nc.1, Plugin._prepend_plugin_checks p._message_command_checks nc.2))
          _loops := p._loops.map (fun lp => { lp with status := .started }) } := by
  unfold Plugin.load
  cases hb : bot.isBotBase <;>
    simp [hb, pushCmdStage_eq, pushListenerStage_eq, startLoopStage_eq]

/-- The host-call trace of `load`, decomposed into its stages. -/
theorem load_snd (p : Plugin) (bot : Bot) :
    (p.load bot).2 =
      HostCall.runHooks p._pre_load_hooks ::
        (prefixAddCalls p bot ++ slashAddCalls p ++ userAddCalls p ++
            messageAddCalls p ++ listenerAddCalls p ++ loopStartCalls p ++
          [HostCall.runHooks p._post_load_hooks,
           HostCall.schedule_delayed_command_sync]) := by
  unfold Plugin.load prefixAddCalls slashAddCalls userAddCalls messageAddCalls
    listenerAddCalls loopStartCalls
  cases hb : bot.isBotBase <;>
    simp [hb, pushCmdStage_eq, pushListenerStage_eq, startLoopStage_eq]

/-- The plugin state after `unload`: loops canceled, everything else
(including the bot handle and all registry dicts) untouched. -/
theorem unload_fst (p : Plugin) (bot : Bot) :
    (p.unload bot).1 =
      { p with _loops := p._loops.map (fun lp => { lp with status := .canceled }) } := by
  unfold Plugin.unload
  cases hb : bot.isBotBase <;>
    simp [hb, removeCmdStage_eq, removeListenerStage_eq, cancelLoopStage_eq]

theorem filterMap_none (l : List α) :
    l.filterMap (fun _ => (none : Option β)) = [] := by
  induction l <;> simp_all

theorem filterMap_some_fun (l : List α) (f : α → β) :
    l.filterMap (fun a => some (f a)) = l.map f := by
  induction l <;> simp_all

theorem flatMap_nil_fun (l : List α) :
    (l.flatMap fun _ => ([] : List β)) = [] := by
  induction l <;> simp_all

theorem filterMap_flatMap (l : List β) (g : β → List α) (f : α → Option γ) :
    (l.flatMap g).filterMap f = l.flatMap (fun x => (g x).filterMap f) := by
  induction l with
  | nil => simp
  | cons b rest ih => simp [ih]

/-- The host-call trace of `unload`, decomposed into its stages. -/
theorem unload_snd (p : Plugin) (bot : Bot) :
    (p.unload bot).2 =
      HostCall.runHooks p._pre_unload_hooks ::
        ((if bot.isBotBase then
            p._commands.map (fun nc => HostCall.remove_command nc.1)
          else []) ++
          p._slash_commands.map (fun nc => HostCall.remove_slash_command nc.1) ++
          p._user_commands.map (fun nc => HostCall.remove_user_command nc.1) ++
          p._message_commands.map (fun nc => HostCall.remove_message_command nc.1) ++
          p._listeners.flatMap (fun q => q.2.map (fun cb => HostCall.remove_listener cb q.1)) ++
          p._loops.map (fun lp => HostCall.loop_cancel lp.id) ++
          [HostCall.runHooks p._post_unload_hooks,
           HostCall.schedule_delayed_command_sync]) := by
  unfold Plugin.unload
  cases hb : bot.isBotBase <;>
    simp [hb, removeCmdStage_eq, removeListenerStage_eq, cancelLoopStage_eq]

/-! ### Extraction lemmas: what each kind of call in a trace amounts to -/

theorem addedPrefixNames_load (p : Plugin) (bot : Bot) :
    addedPrefixNames (p.load bot).2 =
      if bot.isBotBase then p._commands.map Prod.fst else [] := by
  rw [load_snd]
  unfold prefixAddCalls slashAddCalls userAddCalls messageAddCalls listenerAddCalls loopStartCalls
  cases hb : bot.isBotBase <;>
    simp [addedPrefixNames, hb, List.filterMap_append, List.filterMap_map, Function.comp_def,
      filterMap_flatMap, filterMap_none, filterMap_some_fun, flatMap_nil_fun]

theorem addedSlashNames_load (p : Plugin) (bot : Bot) :
    addedSlashNames (p.load bot).2 = p._slash_commands.map Prod.fst := by
  rw [load_snd]
  unfold prefixAddCalls slashAddCalls userAddCalls messageAddCalls listenerAddCalls loopStartCalls
  cases hb : bot.isBotBase <;>
    simp [addedSlashNames, hb, List.filterMap_append, List.filterMap_map, Function.comp_def,
      filterMap_flatMap, filterMap_none, filterMap_some_fun, flatMap_nil_fun]

theorem addedUserNames_load (p : Plugin) (bot : Bot) :
    addedUserNames (p.load bot).2 = p._user_commands.map Prod.fst := by
  rw [load_snd]
  unfold prefixAddCalls slashAddCalls userAddCalls messageAddCalls listenerAddCalls loopStartCalls
  cases hb : bot.isBotBase <;>
    simp [addedUserNames, hb, List.filterMap_append, List.filterMap_map, Function.comp_def,
      filterMap_flatMap, filterMap_none, filterMap_some_fun, flatMap_nil_fun]

theorem addedMessageNames_load (p : Plugin) (bot : Bot) :
    addedMessageNames (p.load bot).2 = p._message_commands.map Prod.fst := by
  rw [load_snd]
  unfold prefixAddCalls slashAddCalls userAddCalls messageAddCalls listenerAddCalls loopStartCalls
  cases hb : bot.isBotBase <;>
    simp [addedMessageNames, hb, List.filterMap_append, List.filterMap_map, Function.comp_def,
      filterMap_flatMap, filterMap_none, filterMap_some_fun, flatMap_nil_fun]

theorem addedListenerPairs_load (p : Plugin) (bot : Bot) :
    addedListenerPairs (p.load bot).2 =
      p._listeners.flatMap (fun q => q.2.map (fun cb => (cb, q.1))) := by
  rw [load_snd]
  unfold prefixAddCalls slashAddCalls userAddCalls messageAddCalls listenerAddCalls loopStartCalls
  cases hb : bot.isBotBase <;>
    simp [addedListenerPairs, hb, List.filterMap_append, List.filterMap_map, Function.comp_def,
      filterMap_flatMap, filterMap_none, filterMap_some_fun, flatMap_nil_fun]

theorem startedLoopIds_load (p : Plugin) (bot : Bot) :
    startedLoopIds (p.load bot).2 = p._loops.map Loop.id := by
  rw [load_snd]
  unfold prefixAddCalls slashAddCalls userAddCalls messageAddCalls listenerAddCalls loopStartCalls
  cases hb : bot.isBotBase <;>
    simp [startedLoopIds, hb, List.filterMap_append, List.filterMap_map, Function.comp_def,
      filterMap_flatMap, filterMap_none, filterMap_some_fun, flatMap_nil_fun]

theorem removedPrefixNames_unload (p : Plugin) (bot : Bot) :
    removedPrefixNames (p.unload bot).2 =
      if bot.isBotBase then p._commands.map Prod.fst else [] := by
  rw [unload_snd]
  cases hb : bot.isBotBase <;>
    simp [removedPrefixNames, hb, List.filterMap_append, List.filterMap_map, Function.comp_def,
      filterMap_flatMap, filterMap_none, filterMap_some_fun, flatMap_nil_fun]

theorem removedSlashNames_unload (p : Plugin) (bot : Bot) :
    removedSlashNames (p.unload bot).2 = p._slash_commands.map Prod.fst := by
  rw [unload_snd]
  cases hb : bot.isBotBase <;>
    simp [removedSlashNames, hb, List.filterMap_append, List.filterMap_map, Function.comp_def,
      filterMap_flatMap, filterMap_none, filterMap_some_fun, flatMap_nil_fun]

theorem removedUserNames_unload (p : Plugin) (bot : Bot) :
    removedUserNames (p.unload bot).2 = p._user_commands.map Prod.fst := by
  rw [unload_snd]
  cases hb : bot.isBotBase <;>
    simp [removedUserNames, hb, List.filterMap_append, List.filterMap_map, Function.comp_def,
      filterMap_flatMap, filterMap_none, filterMap_some_fun, flatMap_nil_fun]

theorem removedMessageNames_unload (p : Plugin) (bot : Bot) :
    removedMessageNames (p.unload bot).2 = p._message_commands.map Prod.fst := by
  rw [unload_snd]
  cases hb : bot.isBotBase <;>
    simp [removedMessageNames, hb, List.filterMap_append, List.filterMap_map, Function.comp_def,
      filterMap_flatMap, filterMap_none, filterMap_some_fun, flatMap_nil_fun]

theorem removedListenerPairs_unload (p : Plugin) (bot : Bot) :
    removedListenerPairs (p.unload bot).2 =
      p._listeners.flatMap (fun q => q.2.map (fun cb => (cb, q.1))) := by
  rw [unload_snd]
  cases hb : bot.isBotBase <;>
    simp [removedListenerPairs, hb, List.filterMap_append, List.filterMap_map, Function.comp_def,
      filterMap_flatMap, filterMap_none, filterMap_some_fun, flatMap_nil_fun]

theorem canceledLoopIds_unload (p : Plugin) (bot : Bot) :
    canceledLoopIds (p.unload bot).2 = p._loops.map Loop.id := by
  rw [unload_snd]
  cases hb : bot.isBotBase <;>
    simp [canceledLoopIds, hb, List.filterMap_append, List.filterMap_map, Function.comp_def,
      filterMap_flatMap, filterMap_none, filterMap_some_fun, flatMap_nil_fun]

/-! ### Dictionary lookup lemmas -/

theorem orO_none_right (x : Option α) : orO x none = x := by
  cases x <;> rfl

theorem lookup_append {κ : Type} [BEq κ] (l₁ l₂ : List (κ × α)) (k : κ) :
    (l₁ ++ l₂).lookup k = orO (l₁.lookup k) (l₂.lookup k) := by
  induction l₁ with
  | nil => simp [orO]
  | cons kv rest ih =>
    cases kv with
    | mk a b =>
      simp only [List.cons_append, List.lookup]
      cases h : k == a <;> simp [h, ih, orO]

theorem lookup_eq_none_of_not_mem_keys {κ : Type} [BEq κ] [LawfulBEq κ]
    {l : List (κ × α)} {k : κ} (h : k ∉ l.map Prod.fst) : l.lookup k = none := by
  induction l with
  | nil => rfl
  | cons q rest ih =>
    cases q with
    | mk a b =>
      simp only [List.map_cons, List.mem_cons, not_or] at h
      simp [List.lookup, beq_eq_false_iff_ne.mpr h.1, ih h.2]

theorem lookup_eq_none_of_bound {l : List (Nat × α)} {n : Nat}
    (h : ∀ q ∈ l, q.1 < n) : l.lookup n = none := by
  apply lookup_eq_none_of_not_mem_keys
  intro hn
  obtain ⟨q, hq, hq1⟩ := List.mem_map.mp hn
  exact absurd hq1 (Nat.ne_of_lt (h q hq))

theorem lookup_updateAssoc_self {l : List (Nat × α)} {k : Nat} {f : α → α} {v : α}
    (h : l.lookup k = some v) : (updateAssoc l k f).lookup k = some (f v) := by
  induction l with
  | nil => simp [List.lookup] at h
  | cons q rest ih =>
    cases q with
    | mk a b =>
      simp only [updateAssoc, List.map_cons] at ih ⊢
      by_cases hak : a = k
      · subst hak
        rw [if_pos rfl]
        simp only [List.lookup, beq_self_eq_true] at h ⊢
        injection h with h
        rw [h]
      · rw [if_neg hak]
        have hk : (k == a) = false := beq_eq_false_iff_ne.mpr (Ne.symm hak)
        simp only [List.lookup, hk] at h ⊢
        exact ih h

theorem lookup_updateAssoc_ne {l : List (Nat × α)} {k : Nat} {f : α → α} {j : Nat}
    (h : j ≠ k) : (updateAssoc l k f).lookup j = l.lookup j := by
  induction l with
  | nil => rfl
  | cons q rest ih =>
    cases q with
    | mk a b =>
      simp only [updateAssoc, List.map_cons] at ih ⊢
      by_cases hak : a = k
      · subst hak
        rw [if_pos rfl]
        have hj : (j == a) = false := beq_eq_false_iff_ne.mpr h
        simp only [List.lookup, hj]
        exact ih
      · rw [if_neg hak]
        simp only [List.lookup]
        cases hj : j == a <;> simp [hj, ih]

theorem lookup_setdefault_self (d : List (String × α)) (k : String) (v : α) :
    (setdefault d k v).lookup k = some ((d.lookup k).getD v) := by
  unfold setdefault
  cases h : d.lookup k with
  | none => simp [h, lookup_append, orO, List.lookup]
  | some w => simp [h]

theorem lookup_setdefault_ne (d : List (String × α)) (k : String) (v : α)
    {j : String} (h : j ≠ k) : (setdefault d k v).lookup j = d.lookup j := by
  unfold setdefault
  split
  · rfl
  · rw [lookup_append]
    have hj : List.lookup j [(k, v)] = none := by
      simp [List.lookup, beq_eq_false_iff_ne.mpr h]
    rw [hj, orO_none_right]

theorem lookup_map_replace (d : List (String × α)) (k : String) (v : α)
    (h : (d.lookup k).isSome = true) :
    (d.map (fun kv => if kv.1 = k then (k, v) else kv)).lookup k = some v := by
  induction d with
  | nil => simp [List.lookup] at h
  | cons kv rest ih =>
    cases kv with
    | mk a b =>
      simp only [List.map_cons]
      by_cases hak : a = k
      · subst hak
        rw [if_pos rfl]
        simp [List.lookup]
      · rw [if_neg hak]
        have hk : (k == a) = false := beq_eq_false_iff_ne.mpr (Ne.symm hak)
        simp only [List.lookup, hk] at h ⊢
        exact ih h

theorem lookup_map_replace_ne (d : List (String × α)) (k : String) (v : α)
    {j : String} (h : j ≠ k) :
    (d.map (fun kv => if kv.1 = k then (k, v) else kv)).lookup j = d.lookup j := by
  induction d with
  | nil => rfl
  | cons kv rest ih =>
    cases kv with
    | mk a b =>
      simp only [List.map_cons]
      by_cases hak : a = k
      · subst hak
        rw [if_pos rfl]
        have hj : (j == a) = false := beq_eq_false_iff_ne.mpr h
        simp only [List.lookup, hj]
        exact ih
      · rw [if_neg hak]
        simp only [List.lookup]
        cases hj : j == a <;> simp [hj, ih]

theorem lookup_dictInsert_self (d : List (String × α)) (k : String) (v : α) :
    (dictInsert d k v).lookup k = some v := by
  unfold dictInsert
  split
  · exact lookup_map_replace d k v (by assumption)
  · rename_i h
    have hnone : d.lookup k = none := Option.not_isSome_iff_eq_none.mp h
    simp [lookup_append, hnone, orO, List.lookup]

theorem lookup_dictInsert_ne (d : List (String × α)) (k : String) (v : α)
    {j : String} (h : j ≠ k) : (dictInsert d k v).lookup j = d.lookup j := by
  unfold dictInsert
  split
  · exact lookup_map_replace_ne d k v h
  · rw [lookup_append]
    have hj : List.lookup j [(k, v)] = none := by
      simp [List.lookup, beq_eq_false_iff_ne.mpr h]
    rw [hj, orO_none_right]

theorem lookup_dictMerge (b : List (String × α)) (hb : (b.map Prod.fst).Nodup) :
    ∀ (a : List (String × α)) (k : String),
      (dictMerge a b).lookup k = orO (b.lookup k) (a.lookup k) := by
  induction b with
  | nil => intro a k; simp [dictMerge, orO]
  | cons kv rest ih =>
    intro a k
    cases kv with
    | mk kb vb =>
      obtain ⟨hkb, hb'⟩ := List.nodup_cons.mp hb
      have step : dictMerge a ((kb, vb) :: rest) = dictMerge (dictInsert a kb vb) rest := rfl
      rw [step, ih hb']
      by_cases hk : k = kb
      · subst hk
        have hrest : rest.lookup k = none :=
          lookup_eq_none_of_not_mem_keys (by simpa using hkb)
        simp [hrest, List.lookup, lookup_dictInsert_self, orO]
      · rw [lookup_dictInsert_ne a kb vb hk]
        simp [List.lookup, beq_eq_false_iff_ne.mpr hk]

theorem filteredKwargs_keys_mem {kwargs : Kwargs} {k : String} :
    k ∈ (filteredKwargs kwargs).map Prod.fst → k ∈ kwargs.map Prod.fst := by
  induction kwargs with
  | nil =>
    intro h
    simp [filteredKwargs] at h
  | cons q rest ih =>
    intro h
    cases q with
    | mk a ov =>
      cases ov with
      | none =>
        exact List.mem_cons_of_mem a (ih h)
      | some v =>
        have h1 : filteredKwargs ((a, some v) :: rest) = (a, v) :: filteredKwargs rest := rfl
        rw [h1, List.map_cons, List.mem_cons] at h
        rcases h with h | h
        · exact List.mem_cons.mpr (Or.inl h)
        · exact List.mem_cons_of_mem a (ih h)

theorem filteredKwargs_keys_nodup {kwargs : Kwargs} :
    (kwargs.map Prod.fst).Nodup → ((filteredKwargs kwargs).map Prod.fst).Nodup := by
  induction kwargs with
  | nil =>
    intro _
    simp [filteredKwargs]
  | cons q rest ih =>
    intro h
    cases q with
    | mk a ov =>
      rw [List.map_cons] at h
      obtain ⟨ha, hrest⟩ := List.nodup_cons.mp h
      cases ov with
      | none => exact ih hrest
      | some v =>
        have h1 : filteredKwargs ((a, some v) :: rest) = (a, v) :: filteredKwargs rest := rfl
        rw [h1, List.map_cons]
        exact List.nodup_cons.mpr ⟨fun hm => ha (filteredKwargs_keys_mem hm), ih hrest⟩

theorem lookup_filteredKwargs {kwargs : Kwargs} (k : String) :
    (kwargs.map Prod.fst).Nodup →
      (filteredKwargs kwargs).lookup k = (kwargs.lookup k).join := by
  induction kwargs with
  | nil =>
    intro _
    rfl
  | cons q rest ih =>
    intro h
    cases q with
    | mk a ov =>
      rw [List.map_cons] at h
      obtain ⟨ha, hrest⟩ := List.nodup_cons.mp h
      by_cases hk : k = a
      · subst hk
        cases ov with
        | none =>
          have h1 : filteredKwargs ((k, none) :: rest) = filteredKwargs rest := rfl
          have hnone : (filteredKwargs rest).lookup k = none :=
            lookup_eq_none_of_not_mem_keys (fun hm => ha (filteredKwargs_keys_mem hm))
          have h3 : List.lookup k ((k, (none : Option AttrVal)) :: rest) = some none := by
            simp [List.lookup]
          rw [h1, hnone, h3]
          rfl
        | some v =>
          have h1 : filteredKwargs ((k, some v) :: rest) = (k, v) :: filteredKwargs rest := rfl
          rw [h1]
          simp [List.lookup]
      · have hne : (k == a) = false := beq_eq_false_iff_ne.mpr hk
        cases ov with
        | none =>
          have h1 : filteredKwargs ((a, none) :: rest) = filteredKwargs rest := rfl
          have h3 : List.lookup k ((a, (none : Option AttrVal)) :: rest) = List.lookup k rest := by
            simp [List.lookup, hne]
          rw [h1, h3]
          exact ih hrest
        | some v =>
          have h1 : filteredKwargs ((a, some v) :: rest) = (a, v) :: filteredKwargs rest := rfl
          have h2 : List.lookup k ((a, v) :: filteredKwargs rest) =
              List.lookup k (filteredKwargs rest) := by
            simp [List.lookup, hne]
          have h3 : List.lookup k ((a, some v) :: rest) = List.lookup k rest := by
            simp [List.lookup, hne]
          rw [h1, h2, h3]
          exact ih hrest

/-! ## Claim theorems -/

/-- C1: after a single `load(bot)` on a host that supports prefix commands,
the check list of every prefix command is exactly the plugin-wide prefix-check
list followed by the pre-existing checks of that command, preserving the
relative order inside each of the two lists; the same prepending holds for
slash, user and message commands against their respective plugin-wide check
lists. In particular, plugin checks `[A, B]` and local checks `[C]` yield
`[A, B, C]`. -/
theorem load_prepends_plugin_checks (p : Plugin) (bot : Bot)
    (h : bot.isBotBase = true) :
    ((p.load bot).1)._commands =
        p._commands.map
          (fun nc => (nc.1, { nc.2 with checks := p._command_checks ++ nc.2.checks })) ∧
      ((p.load bot).1)._slash_commands =
        p._slash_commands.map
          (fun nc => (nc.1, { nc.2 with checks := p._slash_command_checks ++ nc.2.checks })) ∧
      ((p.load bot).1)._user_commands =
        p._user_commands.map
          (fun nc => (nc.1, { nc.2 with checks := p._user_command_checks ++ nc.2.checks })) ∧
      ((p.load bot).1)._message_commands =
        p._message_commands.map
          (fun nc => (nc.1, { nc.2 with checks := p._message_command_checks ++ nc.2.checks })) := by
  simp [load_fst, h, prepend_checks_eq]

/-- Witness for C1: plugin-wide checks `[0, 1]` (`A`, `B`) and one command
with local checks `[2]` (`C`) produce the check list `[0, 1, 2]`
(`[A, B, C]`) after one `load`. -/
theorem load_prepends_plugin_checks_witness :
    botHost.isBotBase = true ∧
      ((pluginAB.load botHost).1)._commands =
        [("c", { qualified_name := "c", callback := 0, checks := [0, 1, 2] })] := by
  refine ⟨rfl, ?_⟩
  have h := (load_prepends_plugin_checks pluginAB botHost rfl).1
  simpa [pluginAB, Plugin.empty] using h

/-- C2 counterexample: with one plugin-wide prefix check (id `0`) and one
command with local checks `[2]`, the sequence `load; unload; load` leaves
the check list of the command as `[0, 0, 2]` — the plugin-wide check `0` appears
twice, refuting the claim that each plugin-wide check appears at most once
in the check list of a command across load/unload/reload cycles. -/
theorem reload_duplicates_checks_counterexample :
    pluginReloaded._commands.map (fun nc => nc.2.checks) = [[0, 0, 2]] ∧
      ¬ (([0, 0, 2] : List Nat).count 0 ≤ 1) := by
  constructor
  · rfl
  · decide

/-- C2 amended: the in-place check prepending is applied once per `load`
call, and `unload` does not reverse it; hence after `load; unload; load`
the check list of each command carries the plugin-wide checks twice, once per
load, in front of the original checks of the command — the mutation is not
limited to a single application across reload cycles. -/
theorem reload_prepends_checks_once_per_load (p : Plugin) (bot : Bot)
    (h : bot.isBotBase = true) :
    (reloadOnce p bot)._commands =
        p._commands.map
          (fun nc =>
            (nc.1,
             { nc.2 with
                checks := p._command_checks ++ p._command_checks ++ nc.2.checks })) ∧
      (reloadOnce p bot)._slash_commands =
        p._slash_commands.map
          (fun nc =>
            (nc.1,
             { nc.2 with
                checks := p._slash_command_checks ++ p._slash_command_checks ++ nc.2.checks })) ∧
      (reloadOnce p bot)._user_commands =
        p._user_commands.map
          (fun nc =>
            (nc.1,
             { nc.2 with
                checks := p._user_command_checks ++ p._user_command_checks ++ nc.2.checks })) ∧
      (reloadOnce p bot)._message_commands =
        p._message_commands.map
          (fun nc =>
            (nc.1,
             { nc.2 with
                checks :=
                  p._message_command_checks ++ p._message_command_checks ++ nc.2.checks })) := by
  unfold reloadOnce
  simp [load_fst, unload_fst, h, prepend_checks_eq, List.map_map, Function.comp_def]

/-- Witness for C2 amended: the reload cycle on the concrete plugin yields
`[0, 0, 2]`, the plugin check prepended once per load. -/
theorem reload_prepends_checks_once_per_load_witness :
    botHost.isBotBase = true ∧
      (reloadOnce pluginReload botHost)._commands =
        [("c", { qualified_name := "c", callback := 0, checks := [0, 0, 2] })] := by
  refine ⟨rfl, ?_⟩
  have h := (reload_prepends_checks_once_per_load pluginReload botHost rfl).1
  simpa [pluginReload, Plugin.empty] using h

/-- C3: `load(bot)` followed by `unload(bot)` produces, per entity kind, the
same sequence of names removed as was added (hence the add-call set and the
remove-call set are equal per kind), removes exactly the (callback, event)
listener pairs that were added, starts exactly the registered loops on load
and cancels exactly those loops on unload, and leaves every registered loop
handle started after `load` and canceled after `unload`. -/
theorem load_unload_round_trip (p : Plugin) (bot : Bot) :
    addedPrefixNames (p.load bot).2 = removedPrefixNames ((p.load bot).1.unload bot).2 ∧
      addedSlashNames (p.load bot).2 = removedSlashNames ((p.load bot).1.unload bot).2 ∧
      addedUserNames (p.load bot).2 = removedUserNames ((p.load bot).1.unload bot).2 ∧
      addedMessageNames (p.load bot).2 = removedMessageNames ((p.load bot).1.unload bot).2 ∧
      addedListenerPairs (p.load bot).2 = removedListenerPairs ((p.load bot).1.unload bot).2 ∧
      startedLoopIds (p.load bot).2 = p._loops.map Loop.id ∧
      canceledLoopIds ((p.load bot).1.unload bot).2 = p._loops.map Loop.id ∧
      ((p.load bot).1)._loops.map Loop.status =
        List.replicate p._loops.length LoopStatus.started ∧
      (((p.load bot).1.unload bot).1)._loops.map Loop.status =
        List.replicate p._loops.length LoopStatus.canceled := by
  cases hb : bot.isBotBase <;>
    simp [addedPrefixNames_load, addedSlashNames_load, addedUserNames_load,
      addedMessageNames_load, addedListenerPairs_load, startedLoopIds_load,
      removedPrefixNames_unload, removedSlashNames_unload, removedUserNames_unload,
      removedMessageNames_unload, removedListenerPairs_unload, canceledLoopIds_unload,
      load_fst, unload_fst, hb, List.map_map, Function.comp_def]

/-- C7: the host-call trace of a single `load(bot)` is exactly: the pre-load
hook stage, then every prefix command (only on a prefix-supporting host),
then every slash command, then every user command, then every message
command, then every listener (for each event key, each callback in
registration order), then every loop start, then the post-load hook stage,
then the delayed-sync trigger; within each command stage the push order
follows the insertion order of the corresponding name-keyed dict. -/
theorem load_stage_order (p : Plugin) (bot : Bot) :
    (p.load bot).2 =
      HostCall.runHooks p._pre_load_hooks ::
        (prefixAddCalls p bot ++ slashAddCalls p ++ userAddCalls p ++
            messageAddCalls p ++ listenerAddCalls p ++ loopStartCalls p ++
          [HostCall.runHooks p._post_load_hooks,
           HostCall.schedule_delayed_command_sync]) :=
  load_snd p bot

/-- C4: applying any of the five command-kind decorators (`command`, `group`,
`slash_command`, `user_command`, `message_command`) to a callable that is not
a coroutine function raises the invalid-callback error (a `TypeError` naming
the callable, which the spec calls `InvalidCallbackError`) synchronously at
decoration time, and the plugin state after the call — in particular every
registry map — is exactly the state before it: no entity is constructed or
stored. -/
theorem non_coroutine_decoration_fails (p : Plugin) (name : Option String)
    (cb : Callback) (h : cb.isCoroutine = false) :
    p.command name cb = (.error (.invalidCallback cb.qualname), p) ∧
      p.group name cb = (.error (.invalidCallback cb.qualname), p) ∧
      p.slash_command name cb = (.error (.invalidCallback cb.qualname), p) ∧
      p.user_command name cb = (.error (.invalidCallback cb.qualname), p) ∧
      p.message_command name cb = (.error (.invalidCallback cb.qualname), p) := by
  simp [Plugin.command, Plugin.group, Plugin.slash_command, Plugin.user_command,
    Plugin.message_command, h]

/-- Witness for C4: decorating a plain (non-async) callable on a fully
populated plugin errors and leaves the plugin untouched. -/
theorem non_coroutine_decoration_fails_witness :
    plainCallable.isCoroutine = false ∧
      Plugin.command pluginFull none plainCallable =
        (.error (.invalidCallback "mod.f"), pluginFull) := by
  refine ⟨rfl, ?_⟩
  exact (non_coroutine_decoration_fails pluginFull none plainCallable rfl).1

/-- C8: `register_loop(wait_until_ready=True)` on a loop that already has a
before-start callback — including the callback a previous
`register_loop(wait_until_ready=True)` attached — raises the
conflicting-hook error, leaves the existing hook untouched and does not add
the loop to the loop list of the plugin; on a loop with no before-start callback
it attaches the readiness-wait hook at decoration time and appends the loop
to the loops of the plugin. -/
theorem register_loop_conflicting_hook (p : Plugin) (l : Loop) :
    (∀ hk, l._before_loop = some hk →
        p.register_loop true l = (.error .conflictingHook, p, l)) ∧
      (l._before_loop = none →
        p.register_loop true l =
          (.ok (),
           { p with
              _loops :=
                p._loops ++ [{ l with _before_loop := some .wait_until_ready_hook }] },
           { l with _before_loop := some .wait_until_ready_hook })) ∧
      (l._before_loop = none →
        Plugin.register_loop (p.register_loop true l).2.1 true
            (p.register_loop true l).2.2 =
          (.error .conflictingHook,
           (p.register_loop true l).2.1,
           (p.register_loop true l).2.2)) := by
  refine ⟨fun hk h => ?_, fun h => ?_, fun h => ?_⟩ <;>
    simp [Plugin.register_loop, h]

/-- C5: the attribute merge starts from the defaults and overlays exactly
the override keys that are not the unset sentinel `None` (present-but-falsy
values override, `None` is skipped); the result holds an `extras` mapping
(created empty when absent) in which `"plugin"` resolves to the owning
plugin and `"metadata"` to its metadata unless the corresponding entry
pre-existed, in which case the pre-existing entry is kept; all other extras
entries are unchanged. -/
theorem apply_attrs_merge_spec (h : AttrHeap) (attrsRef : Nat) (kwargs : Kwargs)
    (attrs : AttrDict) (k exk : String)
    (wf : h.WF) (hnd : (kwargs.map Prod.fst).Nodup)
    (hA : h.attrDicts.lookup attrsRef = some attrs)
    (hS : (Plugin._apply_attrs h attrsRef kwargs).isSome = true)
    (hke : k ≠ "extras") (hx1 : exk ≠ "plugin") (hx2 : exk ≠ "metadata") :
    (applyAttrsResult h attrsRef kwargs).lookup k =
        orO ((kwargs.lookup k).join) (attrs.lookup k) ∧
      (applyAttrsResult h attrsRef kwargs).lookup "extras" =
        some (.eref (applyAttrsExtrasRef h attrsRef kwargs)) ∧
      (applyAttrsExtras h attrsRef kwargs).lookup "plugin" =
        some (((extrasBefore h attrsRef kwargs).lookup "plugin").getD .pluginRef) ∧
      (applyAttrsExtras h attrsRef kwargs).lookup "metadata" =
        some (((extrasBefore h attrsRef kwargs).lookup "metadata").getD .metadataRef) ∧
      (applyAttrsExtras h attrsRef kwargs).lookup exk =
        (extrasBefore h attrsRef kwargs).lookup exk := by
  have hmerge : ∀ j : String,
      (dictMerge attrs (filteredKwargs kwargs)).lookup j =
        orO ((kwargs.lookup j).join) (attrs.lookup j) := by
    intro j
    rw [lookup_dictMerge (filteredKwargs kwargs) (filteredKwargs_keys_nodup hnd) attrs j,
      lookup_filteredKwargs j hnd]
  cases hx : (dictMerge attrs (filteredKwargs kwargs)).lookup "extras" with
  | none =>
    have happ : Plugin._apply_attrs h attrsRef kwargs =
        some ({ attrDicts :=
                  h.attrDicts ++
                    [(h.nextAttrRef,
                      dictMerge attrs (filteredKwargs kwargs) ++
                        [("extras", AttrVal.eref h.nextExtrasRef)])]
                extrasDicts :=
                  h.extrasDicts ++
                    [(h.nextExtrasRef,
                      setdefault (setdefault ([] : ExtrasDict) "plugin" .pluginRef)
                        "metadata" .metadataRef)]
                nextAttrRef := h.nextAttrRef + 1
                nextExtrasRef := h.nextExtrasRef + 1 },
              h.nextAttrRef) := by
      unfold Plugin._apply_attrs
      rw [hA]
      simp [hx]
    have hres : applyAttrsResult h attrsRef kwargs =
        dictMerge attrs (filteredKwargs kwargs) ++
          [("extras", AttrVal.eref h.nextExtrasRef)] := by
      simp only [applyAttrsResult, happ]
      rw [lookup_append, lookup_eq_none_of_bound wf.1]
      simp [List.lookup, orO]
    have hrx : (applyAttrsResult h attrsRef kwargs).lookup "extras" =
        some (AttrVal.eref h.nextExtrasRef) := by
      rw [hres, lookup_append, hx]
      simp [List.lookup, orO]
    have hrefc : applyAttrsExtrasRef h attrsRef kwargs = h.nextExtrasRef := by
      simp only [applyAttrsExtrasRef, hrx, erefOf]
    have hext : applyAttrsExtras h attrsRef kwargs =
        setdefault (setdefault ([] : ExtrasDict) "plugin" .pluginRef)
          "metadata" .metadataRef := by
      simp only [applyAttrsExtras, applyAttrsHeap, happ, hrefc]
      rw [lookup_append, lookup_eq_none_of_bound wf.2]
      simp [List.lookup, orO]
    have hbefore : extrasBefore h attrsRef kwargs = [] := by
      unfold extrasBefore
      rw [hA]
      simp [hx]
    refine ⟨?_, ?_, ?_, ?_, ?_⟩
    · rw [hres, lookup_append]
      have : List.lookup k [("extras", AttrVal.eref h.nextExtrasRef)] = none := by
        simp [List.lookup, beq_eq_false_iff_ne.mpr hke]
      rw [this, orO_none_right, hmerge k]
    · rw [hrx, hrefc]
    · rw [hext, hbefore, lookup_setdefault_ne _ _ _ (by decide),
        lookup_setdefault_self]
    · rw [hext, hbefore, lookup_setdefault_self,
        lookup_setdefault_ne _ _ _ (by decide)]
    · rw [hext, hbefore, lookup_setdefault_ne _ _ _ hx2,
        lookup_setdefault_ne _ _ _ hx1]
  | some av =>
    cases av with
    | prim n =>
      have happ : Plugin._apply_attrs h attrsRef kwargs = none := by
        unfold Plugin._apply_attrs
        rw [hA]
        simp [hx]
      rw [happ] at hS
      simp at hS
    | eref r =>
      cases hed : h.extrasDicts.lookup r with
      | none =>
        have happ : Plugin._apply_attrs h attrsRef kwargs = none := by
          unfold Plugin._apply_attrs
          rw [hA]
          simp [hx, hed]
        rw [happ] at hS
        simp at hS
      | some ed =>
        have happ : Plugin._apply_attrs h attrsRef kwargs =
            some ({ attrDicts :=
                      h.attrDicts ++
                        [(h.nextAttrRef, dictMerge attrs (filteredKwargs kwargs))]
                    extrasDicts :=
                      updateAssoc h.extrasDicts r
                        (fun _ =>
                          setdefault (setdefault ed "plugin" .pluginRef)
                            "metadata" .metadataRef)
                    nextAttrRef := h.nextAttrRef + 1
                    nextExtrasRef := h.nextExtrasRef },
                  h.nextAttrRef) := by
          unfold Plugin._apply_attrs
          rw [hA]
          simp [hx, hed]
        have hres : applyAttrsResult h attrsRef kwargs =
            dictMerge attrs (filteredKwargs kwargs) := by
          simp only [applyAttrsResult, happ]
          rw [lookup_append, lookup_eq_none_of_bound wf.1]
          simp [List.lookup, orO]
        have hrx : (applyAttrsResult h attrsRef kwargs).lookup "extras" =
            some (AttrVal.eref r) := by
          rw [hres, hx]
        have hrefc : applyAttrsExtrasRef h attrsRef kwargs = r := by
          simp only [applyAttrsExtrasRef, hrx, erefOf]
        have hext : applyAttrsExtras h attrsRef kwargs =
            setdefault (setdefault ed "plugin" .pluginRef) "metadata" .metadataRef := by
          simp only [applyAttrsExtras, applyAttrsHeap, happ, hrefc]
          rw [lookup_updateAssoc_self hed]
          rfl
        have hbefore : extrasBefore h attrsRef kwargs = ed := by
          unfold extrasBefore
          rw [hA]
          simp [hx, hed]
        refine ⟨?_, ?_, ?_, ?_, ?_⟩
        · rw [hres, hmerge k]
        · rw [hrx, hrefc]
        · rw [hext, hbefore, lookup_setdefault_ne _ _ _ (by decide),
            lookup_setdefault_self]
        · rw [hext, hbefore, lookup_setdefault_self,
            lookup_setdefault_ne _ _ _ (by decide)]
        · rw [hext, hbefore, lookup_setdefault_ne _ _ _ hx2,
            lookup_setdefault_ne _ _ _ hx1]

/-- Witness for C5: merging the bundle `{help: 9, extras: e0}` (an empty
supplied extras dict) with overrides `help=0` (falsy, overrides),
`usage=None` (unset, skipped) and `brief=4` (new key). -/
theorem apply_attrs_merge_spec_witness :
    ((applyAttrsResult attrHeapEx 0 kwargsEx).lookup "help" =
        orO ((kwargsEx.lookup "help").join)
          (List.lookup "help" [("help", AttrVal.prim 9), ("extras", AttrVal.eref 0)]) ∧
      (applyAttrsResult attrHeapEx 0 kwargsEx).lookup "extras" =
        some (.eref (applyAttrsExtrasRef attrHeapEx 0 kwargsEx)) ∧
      (applyAttrsExtras attrHeapEx 0 kwargsEx).lookup "plugin" =
        some (((extrasBefore attrHeapEx 0 kwargsEx).lookup "plugin").getD .pluginRef) ∧
      (applyAttrsExtras attrHeapEx 0 kwargsEx).lookup "metadata" =
        some (((extrasBefore attrHeapEx 0 kwargsEx).lookup "metadata").getD .metadataRef) ∧
      (applyAttrsExtras attrHeapEx 0 kwargsEx).lookup "k" =
        (extrasBefore attrHeapEx 0 kwargsEx).lookup "k") := by
  exact apply_attrs_merge_spec attrHeapEx 0 kwargsEx
    [("help", AttrVal.prim 9), ("extras", AttrVal.eref 0)] "help" "k"
    (by decide) (by decide) (by decide) (by decide)
    (by decide) (by decide) (by decide)

/-- C6 counterexample: merging a defaults bundle whose `extras` key supplies
an (empty) extras dict mutates that very dict in place — after the merge the
supplied dict contains the `plugin` and `metadata` back-references, so the
mappings contained in the defaults bundle are not left unchanged. -/
theorem apply_attrs_mutates_supplied_extras_counterexample :
    attrHeapEx.extrasDicts.lookup 0 = some [] ∧
      (applyAttrsHeap attrHeapEx 0 []).extrasDicts.lookup 0 =
        some [("plugin", ExtraVal.pluginRef), ("metadata", ExtraVal.metadataRef)] ∧
      (applyAttrsHeap attrHeapEx 0 []).extrasDicts.lookup 0 ≠
        attrHeapEx.extrasDicts.lookup 0 := by
  refine ⟨rfl, rfl, ?_⟩
  decide

/-- C6 amended: the merge never touches a previously allocated top-level
attribute dict (in particular the plugin-level default bundles are
unchanged), and every extras dict other than the one designated by the
result is unchanged; the designated extras dict, however, is updated in
place to `setdefault(setdefault(old, "plugin", ...), "metadata", ...)` —
the dict supplied by the defaults or overrides gains the missing `plugin`
and `metadata` back-references rather than being copied. -/
theorem apply_attrs_frame (h : AttrHeap) (attrsRef : Nat) (kwargs : Kwargs)
    (a e : Nat)
    (wf : h.WF)
    (hS : (Plugin._apply_attrs h attrsRef kwargs).isSome = true)
    (ha : a < h.nextAttrRef)
    (he : e ≠ applyAttrsExtrasRef h attrsRef kwargs) :
    (applyAttrsHeap h attrsRef kwargs).attrDicts.lookup a = h.attrDicts.lookup a ∧
      (applyAttrsHeap h attrsRef kwargs).extrasDicts.lookup e = h.extrasDicts.lookup e ∧
      (applyAttrsHeap h attrsRef kwargs).extrasDicts.lookup
          (applyAttrsExtrasRef h attrsRef kwargs) =
        some (setdefault (setdefault (extrasBefore h attrsRef kwargs) "plugin" .pluginRef)
          "metadata" .metadataRef) := by
  cases hA : h.attrDicts.lookup attrsRef with
  | none =>
    have happ : Plugin._apply_attrs h attrsRef kwargs = none := by
      unfold Plugin._apply_attrs
      rw [hA]
    rw [happ] at hS
    simp at hS
  | some attrs =>
    cases hx : (dictMerge attrs (filteredKwargs kwargs)).lookup "extras" with
    | none =>
      have happ : Plugin._apply_attrs h attrsRef kwargs =
          some ({ attrDicts :=
                    h.attrDicts ++
                      [(h.nextAttrRef,
                        dictMerge attrs (filteredKwargs kwargs) ++
                          [("extras", AttrVal.eref h.nextExtrasRef)])]
                  extrasDicts :=
                    h.extrasDicts ++
                      [(h.nextExtrasRef,
                        setdefault (setdefault ([] : ExtrasDict) "plugin" .pluginRef)
                          "metadata" .metadataRef)]
                  nextAttrRef := h.nextAttrRef + 1
                  nextExtrasRef := h.nextExtrasRef + 1 },
                h.nextAttrRef) := by
        unfold Plugin._apply_attrs
        rw [hA]
        simp [hx]
      have hres : applyAttrsResult h attrsRef kwargs =
          dictMerge attrs (filteredKwargs kwargs) ++
            [("extras", AttrVal.eref h.nextExtrasRef)] := by
        simp only [applyAttrsResult, happ]
        rw [lookup_append, lookup_eq_none_of_bound wf.1]
        simp [List.lookup, orO]
      have hrefc : applyAttrsExtrasRef h attrsRef kwargs = h.nextExtrasRef := by
        simp only [applyAttrsExtrasRef, hres]
        rw [lookup_append, hx]
        simp [List.lookup, orO, erefOf]
      have hbefore : extrasBefore h attrsRef kwargs = [] := by
        unfold extrasBefore
        rw [hA]
        simp [hx]
      rw [hrefc] at he
      refine ⟨?_, ?_, ?_⟩
      · simp only [applyAttrsHeap, happ]
        rw [lookup_append]
        have : List.lookup a
            [(h.nextAttrRef,
              dictMerge attrs (filteredKwargs kwargs) ++
                [("extras", AttrVal.eref h.nextExtrasRef)])] = none := by
          simp [List.lookup, beq_eq_false_iff_ne.mpr (Nat.ne_of_lt ha)]
        rw [this, orO_none_right]
      · simp only [applyAttrsHeap, happ, hrefc]
        rw [lookup_append]
        have : List.lookup e
            [(h.nextExtrasRef,
              setdefault (setdefault ([] : ExtrasDict) "plugin" .pluginRef)
                "metadata" .metadataRef)] = none := by
          simp [List.lookup, beq_eq_false_iff_ne.mpr he]
        rw [this, orO_none_right]
      · simp only [applyAttrsHeap, happ, hrefc, hbefore]
        rw [lookup_append, lookup_eq_none_of_bound wf.2]
        simp [List.lookup, orO]
    | some av =>
      cases av with
      | prim n =>
        have happ : Plugin._apply_attrs h attrsRef kwargs = none := by
          unfold Plugin._apply_attrs
          rw [hA]
          simp [hx]
        rw [happ] at hS
        simp at hS
      | eref r =>
        cases hed : h.extrasDicts.lookup r with
        | none =>
          have happ : Plugin._apply_attrs h attrsRef kwargs = none := by
            unfold Plugin._apply_attrs
            rw [hA]
            simp [hx, hed]
          rw [happ] at hS
          simp at hS
        | some ed =>
          have happ : Plugin._apply_attrs h attrsRef kwargs =
              some ({ attrDicts :=
                        h.attrDicts ++
                          [(h.nextAttrRef, dictMerge attrs (filteredKwargs kwargs))]
                      extrasDicts :=
                        updateAssoc h.extrasDicts r
                          (fun _ =>
                            setdefault (setdefault ed "plugin" .pluginRef)
                              "metadata" .metadataRef)
                      nextAttrRef := h.nextAttrRef + 1
                      nextExtrasRef := h.nextExtrasRef },
                    h.nextAttrRef) := by
            unfold Plugin._apply_attrs
            rw [hA]
            simp [hx, hed]
          have hres : applyAttrsResult h attrsRef kwargs =
              dictMerge attrs (filteredKwargs kwargs) := by
            simp only [applyAttrsResult, happ]
            rw [lookup_append, lookup_eq_none_of_bound wf.1]
            simp [List.lookup, orO]
          have hrefc : applyAttrsExtrasRef h attrsRef kwargs = r := by
            simp only [applyAttrsExtrasRef, hres, hx, erefOf]
          have hbefore : extrasBefore h attrsRef kwargs = ed := by
            unfold extrasBefore
            rw [hA]
            simp [hx, hed]
          rw [hrefc] at he
          refine ⟨?_, ?_, ?_⟩
          · simp only [applyAttrsHeap, happ]
            rw [lookup_append]
            have : List.lookup a
                [(h.nextAttrRef, dictMerge attrs (filteredKwargs kwargs))] = none := by
              simp [List.lookup, beq_eq_false_iff_ne.mpr (Nat.ne_of_lt ha)]
            rw [this, orO_none_right]
          · simp only [applyAttrsHeap, happ, hrefc]
            exact lookup_updateAssoc_ne he
          · simp only [applyAttrsHeap, happ, hrefc, hbefore]
            exact lookup_updateAssoc_self hed

/-- Witness for C6 amended: on the concrete heap the defaults bundle `0` is
unchanged, the unrelated extras dict `1` is unchanged, and the supplied
extras dict `0` gains exactly the two back-references. -/
theorem apply_attrs_frame_witness :
    (applyAttrsHeap attrHeapEx 0 kwargsEx).attrDicts.lookup 0 =
        attrHeapEx.attrDicts.lookup 0 ∧
      (applyAttrsHeap attrHeapEx 0 kwargsEx).extrasDicts.lookup 1 =
        attrHeapEx.extrasDicts.lookup 1 ∧
      (applyAttrsHeap attrHeapEx 0 kwargsEx).extrasDicts.lookup
          (applyAttrsExtrasRef attrHeapEx 0 kwargsEx) =
        some (setdefault
          (setdefault (extrasBefore attrHeapEx 0 kwargsEx) "plugin" .pluginRef)
          "metadata" .metadataRef) := by
  exact apply_attrs_frame attrHeapEx 0 kwargsEx 0 1
    (by decide) (by decide) (by decide) (by decide)

/-- Witness for C8: a loop with a user-supplied hook is rejected with the
plugin and loop unchanged, and a second `wait_until_ready` registration on a
fresh loop is rejected after the first one succeeded. -/
theorem register_loop_conflicting_hook_witness :
    hookedLoop._before_loop = some (BeforeHook.user 8) ∧
      Plugin.register_loop Plugin.empty true hookedLoop =
        (.error .conflictingHook, Plugin.empty, hookedLoop) ∧
      Plugin.register_loop (Plugin.register_loop Plugin.empty true freshLoop).2.1 true
          (Plugin.register_loop Plugin.empty true freshLoop).2.2 =
        (.error .conflictingHook,
         (Plugin.register_loop Plugin.empty true freshLoop).2.1,
         (Plugin.register_loop Plugin.empty true freshLoop).2.2) := by
  refine ⟨rfl, ?_, ?_⟩
  · exact (register_loop_conflicting_hook Plugin.empty hookedLoop).1 (BeforeHook.user 8) rfl
  · exact (register_loop_conflicting_hook Plugin.empty freshLoop).2.2 rfl

/-- C9: constructing a `GlobalContext` for a key that already has an
instance returns that same singleton instance and leaves the registry
untouched; `get()` on a never-set context returns the construction-time
default when one was supplied and fails when neither a value nor a default
exists; and after `set(v)` a fresh construction for the same key resolves to
the same singleton whose `get()` returns `v`. -/
theorem global_context_singleton (st : CtxStore) (k : String) (d v : PyVal)
    (wf : st.WF) (hk : st.instancesByKey.lookup k = none) :
    (GlobalContext.new (ctxAfterFirst st k d).1 k none).2 = (ctxAfterFirst st k d).2 ∧
      (GlobalContext.new (ctxAfterFirst st k d).1 k none).1 = (ctxAfterFirst st k d).1 ∧
      CtxStore.getValue (ctxAfterFirst st k d).1 (ctxAfterFirst st k d).2 none =
        some (.ok d) ∧
      CtxStore.getValue (GlobalContext.new st k none).1 (GlobalContext.new st k none).2
          none =
        some (.error ()) ∧
      (GlobalContext.new (ctxAfterSet st k d v) k none).2 = (ctxAfterFirst st k d).2 ∧
      CtxStore.getValue (GlobalContext.new (ctxAfterSet st k d v) k none).1
          (GlobalContext.new (ctxAfterSet st k d v) k none).2 none =
        some (.ok v) := by
  have hfirst : ctxAfterFirst st k d =
      ({ instancesByKey := st.instancesByKey ++ [(k, st.next)]
         heap := st.heap ++ [(st.next, { key := k, value := none, default := some d })]
         next := st.next + 1 },
       st.next) := by
    unfold ctxAfterFirst GlobalContext.new
    rw [hk]
  have hlk : (ctxAfterFirst st k d).1.instancesByKey.lookup k = some st.next := by
    rw [hfirst, lookup_append, hk]
    simp [List.lookup, orO]
  have hheap : (ctxAfterFirst st k d).1.heap.lookup st.next =
      some { key := k, value := none, default := some d } := by
    rw [hfirst, lookup_append, lookup_eq_none_of_bound wf]
    simp [List.lookup, orO]
  have hsetheap : (ctxAfterSet st k d v).heap.lookup st.next =
      some { key := k, value := some v, default := some d } := by
    unfold ctxAfterSet GlobalContext.set
    rw [hfirst]
    have hh : (st.heap ++
        [(st.next, ({ key := k, value := none, default := some d } : GlobalContext))]).lookup
          st.next =
        some { key := k, value := none, default := some d } := by
      rw [lookup_append, lookup_eq_none_of_bound wf]
      simp [List.lookup, orO]
    show List.lookup st.next
        (updateAssoc
          (st.heap ++
            [(st.next, ({ key := k, value := none, default := some d } : GlobalContext))])
          st.next (fun inst => { inst with value := some v })) =
      some { key := k, value := some v, default := some d }
    exact lookup_updateAssoc_self hh
  have hsetlk : (ctxAfterSet st k d v).instancesByKey.lookup k = some st.next := by
    unfold ctxAfterSet GlobalContext.set
    simpa using hlk
  have hsetnew : GlobalContext.new (ctxAfterSet st k d v) k none =
      (ctxAfterSet st k d v, st.next) := by
    unfold GlobalContext.new
    rw [hsetlk]
  refine ⟨?_, ?_, ?_, ?_, ?_, ?_⟩
  · unfold GlobalContext.new
    rw [hlk, hfirst]
  · unfold GlobalContext.new
    rw [hlk]
  · rw [hfirst]
    rw [hfirst] at hheap
    simp [CtxStore.getValue, hheap, GlobalContext.get, pyOr]
  · have hnew : GlobalContext.new st k none =
        ({ instancesByKey := st.instancesByKey ++ [(k, st.next)]
           heap := st.heap ++ [(st.next, { key := k, value := none, default := none })]
           next := st.next + 1 },
         st.next) := by
      unfold GlobalContext.new
      rw [hk]
    have hh : (GlobalContext.new st k none).1.heap.lookup st.next =
        some { key := k, value := none, default := none } := by
      rw [hnew, lookup_append, lookup_eq_none_of_bound wf]
      simp [List.lookup, orO]
    rw [hnew]
    rw [hnew] at hh
    simp [CtxStore.getValue, hh, GlobalContext.get, pyOr]
  · rw [hsetnew, hfirst]
  · rw [hsetnew]
    simp [CtxStore.getValue, hsetheap, GlobalContext.get]

/-- Witness for C9, the scenario of the spec: key `"k"`, construction-time
default `5`, `set(9)` — `get()` before any `set` returns `5`; a fresh
`GlobalContext("k")` after `set(9)` is the same singleton and `get()`
returns `9`; a defaultless never-set context fails. -/
theorem global_context_singleton_witness :
    (GlobalContext.new (ctxAfterFirst CtxStore.empty "k" (.int 5)).1 "k" none).2 =
        (ctxAfterFirst CtxStore.empty "k" (.int 5)).2 ∧
      (GlobalContext.new (ctxAfterFirst CtxStore.empty "k" (.int 5)).1 "k" none).1 =
        (ctxAfterFirst CtxStore.empty "k" (.int 5)).1 ∧
      CtxStore.getValue (ctxAfterFirst CtxStore.empty "k" (.int 5)).1
          (ctxAfterFirst CtxStore.empty "k" (.int 5)).2 none =
        some (.ok (.int 5)) ∧
      CtxStore.getValue (GlobalContext.new CtxStore.empty "k" none).1
          (GlobalContext.new CtxStore.empty "k" none).2 none =
        some (.error ()) ∧
      (GlobalContext.new (ctxAfterSet CtxStore.empty "k" (.int 5) (.int 9)) "k" none).2 =
        (ctxAfterFirst CtxStore.empty "k" (.int 5)).2 ∧
      CtxStore.getValue
          (GlobalContext.new (ctxAfterSet CtxStore.empty "k" (.int 5) (.int 9)) "k" none).1
          (GlobalContext.new (ctxAfterSet CtxStore.empty "k" (.int 5) (.int 9)) "k" none).2
          none =
        some (.ok (.int 9)) := by
  exact global_context_singleton CtxStore.empty "k" (.int 5) (.int 9) (by decide) rfl

/-- C10 counterexample: on a never-set context constructed with default `5`,
`get(0)` returns `5`, not the explicit per-call default `0` — because `get`
resolves `default or self.default` by truthiness, a falsy per-call default
such as `0` does not take precedence, refuting the claim. -/
theorem context_get_falsy_default_counterexample :
    GlobalContext.get ctxInstFive (some (PyVal.int 0)) = .ok (PyVal.int 5) ∧
      GlobalContext.get ctxInstFive (some (PyVal.int 0)) ≠ .ok (PyVal.int 0) := by
  refine ⟨rfl, ?_⟩
  intro hcontra
  simp [ctxInstFive, GlobalContext.get, pyOr, PyVal.truthy] at hcontra

/-- C10 amended: on a never-set context, `get(d)` returns the per-call
default `d` only when `d` is truthy; when `d` is falsy (`0`, `False`, an
empty string) the construction-time default is returned instead when one
exists, and otherwise the call fails — the per-call default does not take
precedence for falsy values. -/
theorem context_get_truthy_default_precedence (inst : GlobalContext) (d : PyVal)
    (h : inst.value = none) :
    GlobalContext.get inst (some d) =
      (if d.truthy then .ok d
       else
         match inst.default with
         | some c => .ok c
         | none => .error ()) := by
  unfold GlobalContext.get pyOr
  rw [h]
  cases ht : d.truthy <;> cases hd : inst.default <;> simp [ht, hd]

/-- Witness for C10 amended: a truthy per-call default (`7`) is returned
even though a construction-time default (`5`) exists. -/
theorem context_get_truthy_default_precedence_witness :
    ctxInstFive.value = none ∧
      GlobalContext.get ctxInstFive (some (PyVal.int 7)) = .ok (PyVal.int 7) := by
  refine ⟨rfl, ?_⟩
  have h := context_get_truthy_default_precedence ctxInstFive (PyVal.int 7) rfl
  simpa [PyVal.truthy] using h

end DisnakePlugins
